import Mathlib

/-!
# Verification of the GenericElementFilter engine

Shallow embedding of `src/genericelementfilter.js` (class `GenericElementFilter`).
The DOM is modelled explicitly: an element is its `data-*` attribute map plus a
`hidden` flag; the auxiliary no-results / status elements are modelled by the
piece of state the engine touches (`hidden` flag, `textContent`).  Side effects
of a filtering pass are additionally recorded in an ordered event trace so that
ordering guarantees can be stated.
-/

set_option maxRecDepth 4096

namespace GEF

/-- Whitespace predicate used for JavaScript's `trim()` and `/\s+/`.
We model the common whitespace characters (space, tab, LF, CR, VT, FF);
the source's `\s` additionally matches exotic Unicode spaces, which we do not
distinguish since trimming and splitting use the same predicate consistently. -/
def isWs (c : Char) : Bool :=
  c = ' ' || c = '\t' || c = '\n' || c = '\r' || c = Char.ofNat 11 || c = Char.ofNat 12

/-- JavaScript `String.prototype.trim`: drop leading whitespace, then drop
trailing whitespace (implemented via `reverse`). Works on the character list. -/
def jsTrimChars (l : List Char) : List Char :=
  ((l.dropWhile isWs).reverse.dropWhile isWs).reverse

/-- `hayRaw.indexOf(",") !== -1`: does the character list contain a comma? -/
def hasComma (l : List Char) : Bool :=
  l.any (fun c => c == ',')

/-- JavaScript `hayRaw.split(",")`: split on every comma; keeps empty chunks,
always returns at least one chunk. -/
def splitCommaChars : List Char → List (List Char)
  | [] => [[]]
  | c :: cs =>
    if c = ',' then [] :: splitCommaChars cs
    else
      match splitCommaChars cs with
      | [] => [[c]]
      | p :: ps => (c :: p) :: ps

/-- JavaScript `hayRaw.split(/\s+/)`: split on maximal whitespace runs
(a leading run produces an empty first chunk and a trailing run an empty last
chunk, exactly as in JS).  Structured as a right fold: a whitespace character
opens a new (initially empty) leading chunk only when it is the first
character of its run. -/
def splitWsChars : List Char → List (List Char)
  | [] => [[]]
  | c :: cs =>
    if isWs c then
      match cs with
      | [] => [] :: splitWsChars cs
      | c' :: _ => if isWs c' then splitWsChars cs else [] :: splitWsChars cs
    else
      match splitWsChars cs with
      | [] => [[c]]
      | p :: ps => (c :: p) :: ps

/-- Append a character to the last chunk of a chunk list (how appending a
non-comma character to a string acts on its comma-split). -/
def snocLast (ls : List (List Char)) (w : Char) : List (List Char) :=
  match ls with
  | [] => [[w]]
  | [p] => [p ++ [w]]
  | p :: ps => p :: snocLast ps w

/-- Does the character list end with a whitespace character? -/
def endsWs : List Char → Bool
  | [] => false
  | [c] => isWs c
  | _ :: cs => endsWs cs

/-- The `.map((p) => p.trim()).filter(Boolean)` stage of the source's
`contains` matching: trim each chunk and drop the empty ones. -/
def trimmedTokens (parts : List (List Char)) : List (List Char) :=
  (parts.map jsTrimChars).filter (fun t => !t.isEmpty)

/-- Spec-side tokenization, following the spec's words for the `contains` mode
("split on commas if any comma is present, else split on whitespace runs — trim
each token, drop empty tokens"), applied to the declared value itself.  Used to
compare the source's computation (which tokenizes the *trimmed* declared value)
against the spec's description. -/
def specTokens (declared : List Char) : List (List Char) :=
  trimmedTokens
    (if hasComma declared then splitCommaChars declared else splitWsChars declared)

/-- The `contains` branch of the source's per-key comparison
(`filterElements`, lines 279–292): trim the declared value, fail on an empty
haystack, split on commas if any comma is present else on whitespace runs,
trim the chunks, drop empties, and succeed iff some token equals the filter
value. -/
def containsTokenMatch (elementValue filterValue : List Char) : Bool :=
  let hayRaw := jsTrimChars elementValue
  if hayRaw.isEmpty then false
  else
    let parts :=
      if hasComma hayRaw then splitCommaChars hayRaw else splitWsChars hayRaw
    ((parts.map jsTrimChars).filter (fun t => !t.isEmpty)).any (fun t => t == filterValue)

/-- `matchMode` option: `"equals"` (default) or `"contains"`. -/
inductive MatchMode where
  | equals
  | contains
deriving Repr, DecidableEq

/-- One step of the `Object.entries(this.currentFilters).every(...)` callback
(`filterElements`, lines 265–297): given one `(filterName, filterValue)` state
entry, the key imposes no constraint when the value is the match-all sentinel,
is ignored when the element declares no matching `data-*` attribute, and
otherwise compares the declared value per the match mode. -/
def matchesFilterEntry (matchMode : MatchMode) (allValue : String)
    (dataset : List (String × String)) (entry : String × String) : Bool :=
  if entry.2 = allValue then true
  else
    match List.lookup entry.1 dataset with
    | none => true
    | some elementValue =>
      match matchMode with
      | MatchMode.contains => containsTokenMatch elementValue.data entry.2.data
      | MatchMode.equals => elementValue == entry.2

/-- `Object.entries(this.currentFilters).every(...)`: conjunction of
`matchesFilterEntry` over every entry of the filter state, in insertion order. -/
def matchesAllFilters (matchMode : MatchMode) (allValue : String)
    (currentFilters : List (String × String)) (dataset : List (String × String)) : Bool :=
  currentFilters.all (matchesFilterEntry matchMode allValue dataset)

/-- A tracked content element: its `data-*` attribute map (`dataset`, read via
`element.dataset[filterName]`) and its `hidden` property. -/
structure Elem where
  dataset : List (String × String)
  hidden : Bool
deriving Repr, DecidableEq

/-- A filter control, as distinguished by `reset` (lines 363–394):
a `<select>` with its option values and current value, a checkbox/radio
(`toggle`), a free-text input, or any other named control. -/
inductive Control where
  | select (name : String) (options : List String) (value : String)
  | toggle (name : String) (value : String) (checked : Bool)
  | textInput (name : String) (value : String)
  | other (name : String) (value : String)
deriving Repr, DecidableEq

/-- The control's `name` property. -/
def Control.name : Control → String
  | Control.select n _ _ => n
  | Control.toggle n _ _ => n
  | Control.textInput n _ => n
  | Control.other n _ => n

/-- The control's `value` property.  For a `<select>` the DOM maintains the
invariant that `value` reads the selected option's value, or `""` when no
option is selected — in particular an option-less select always reads `""` —
so the getter normalizes a stored value that is not among the options to
`""`.  For a checkbox/radio it is the `value` attribute, which is what
`_initializeFilters` reads. -/
def Control.value : Control → String
  | Control.select _ opts v => if opts.contains v then v else ""
  | Control.toggle _ v _ => v
  | Control.textInput _ v => v
  | Control.other _ v => v

/-- JavaScript object property write `obj[key] = value`: overwrite the value
at an existing key in place, otherwise append the new binding (objects keep
string-key insertion order). -/
def setKey (m : List (String × String)) (k v : String) : List (String × String) :=
  if m.any (fun p => p.1 = k) then
    m.map (fun p => if p.1 = k then (k, v) else p)
  else
    m ++ [(k, v)]

/-- `_initializeFilters` (lines 139–159), state part: for each discovered
control, `this.currentFilters[filter.name] = filter.value ?? this.allValue`.
A DOM control's `value` is always a string (never `null`/`undefined`), so the
`?? allValue` fallback never fires in the model. -/
def initFilters (controls : List Control) : List (String × String) :=
  controls.foldl (fun m c => setKey m c.name c.value) []

/-- Observable side effects of a filtering pass, in the order the source
performs them.  `passRun` marks the entry into `filterElements`. -/
inductive Event where
  | passRun
  | beforeHook
  | setVisibility (index : Nat) (visible : Bool)
  | setNoResults (hidden : Bool)
  | setStatus (text : String)
  | afterHook (visibleCount : Nat) (totalCount : Nat)
deriving Repr, DecidableEq

/-- Payload passed to `onBeforeFilter`: a spread copy of `currentFilters` and
a `slice()` copy of `elements`. -/
structure HookPayload where
  currentFilters : List (String × String)
  elements : List Elem

/-- Payload passed to `onAfterFilter`. -/
structure AfterPayload where
  currentFilters : List (String × String)
  visibleCount : Nat
  totalCount : Nat
  elements : List Elem

/-- An `onBeforeFilter` callback.  It receives its own copy of the payload and
may mutate that copy (the returned payload) and/or throw (`Except.error`);
the engine never reads the returned copy back, mirroring the source's spread /
`slice()` snapshots. -/
def BeforeHook : Type := HookPayload → Except String HookPayload

/-- An `onAfterFilter` callback, same conventions as `BeforeHook`. -/
def AfterHook : Type := AfterPayload → Except String AfterPayload

/-- Default status formatter: `(count) => `${count} results found`` . -/
def defaultStatusFormatter (count : Nat) : String :=
  toString count ++ " results found"

/-- The engine instance state (the fields of `this` that the core logic reads
and writes).  `noResultsMessage` is `some h` when the no-results element was
found, `h` being its `hidden` property; `statusElement` is `some t` when the
status element was found, `t` being its `textContent`. -/
structure Engine where
  allValue : String
  matchMode : MatchMode
  statusFormatter : Nat → String
  currentFilters : List (String × String)
  elements : List Elem
  filters : List Control
  noResultsMessage : Option Bool
  statusElement : Option String

/-- Whether an element passes all current filters (the `matchesAllFilters`
constant inside the element loop of `filterElements`). -/
def elementMatches (e : Engine) (el : Elem) : Bool :=
  matchesAllFilters e.matchMode e.allValue e.currentFilters el.dataset

/-- The body of `filterElements` after the before-hook (lines 264–327):
show/hide every element in discovery order, update the no-results message,
update the status line, then invoke the after-hook.  The source's single
`forEach` accumulates the new `hidden` flags, the per-element events,
`hasVisibleElements` and `visibleCount` together; the model expresses the same
four aggregates over the same traversal order. -/
def filterElementsBody (e : Engine) (onAfterFilter : Option AfterHook)
    (trHead : List Event) : Engine × List Event × Except String (Nat × Nat) :=
  let totalCount := e.elements.length
  let elements' := e.elements.map (fun el => { el with hidden := !(elementMatches e el) })
  let visEvents := e.elements.enum.map
    (fun p => Event.setVisibility p.1 (elementMatches e p.2))
  let hasVisibleElements := e.elements.any (elementMatches e)
  let visibleCount := e.elements.countP (fun el => elementMatches e el)
  let noResultsPair : Option Bool × List Event :=
    match e.noResultsMessage with
    | some _ => (some hasVisibleElements, [Event.setNoResults hasVisibleElements])
    | none => (none, [])
  let statusPair : Option String × List Event :=
    match e.statusElement with
    | some _ => (some (e.statusFormatter visibleCount),
                 [Event.setStatus (e.statusFormatter visibleCount)])
    | none => (none, [])
  let e' : Engine :=
    { e with
      elements := elements'
      noResultsMessage := noResultsPair.1
      statusElement := statusPair.1 }
  let tr := trHead ++ visEvents ++ noResultsPair.2 ++ statusPair.2
  match onAfterFilter with
  | some f =>
    (e', tr ++ [Event.afterHook visibleCount totalCount],
      match f { currentFilters := e.currentFilters, visibleCount := visibleCount,
                totalCount := totalCount, elements := e'.elements } with
      | Except.error msg => Except.error msg
      | Except.ok _ => Except.ok (visibleCount, totalCount))
  | none => (e', tr, Except.ok (visibleCount, totalCount))

/-- `filterElements` (lines 251–328).  Returns the engine after the pass, the
ordered event trace, and the outcome: `Except.error` when a hook threw (the
exception propagates to the caller), otherwise `(visibleCount, totalCount)`. -/
def filterElements (e : Engine) (onBeforeFilter : Option BeforeHook)
    (onAfterFilter : Option AfterHook) : Engine × List Event × Except String (Nat × Nat) :=
  match onBeforeFilter with
  | some f =>
    match f { currentFilters := e.currentFilters, elements := e.elements } with
    | Except.error msg => (e, [Event.passRun, Event.beforeHook], Except.error msg)
    | Except.ok _ => filterElementsBody e onAfterFilter [Event.passRun, Event.beforeHook]
  | none => filterElementsBody e onAfterFilter [Event.passRun]

/-- JavaScript falsiness of the `elementsSelector` string argument:
`undefined` / `null` (modelled by `none`) and the empty string are falsy. -/
def jsFalsyStr : Option String → Bool
  | none => true
  | some s => s.isEmpty

/-- What element discovery finds in the hosting document: the elements matched
by `elementsSelector`, the controls matched by `filtersSelector`, and the
optional no-results / status elements (with the state the engine touches). -/
structure DomEnv where
  discoveredElements : List Elem
  discoveredFilters : List Control
  noResultsFound : Option Bool
  statusFound : Option String

/-- The constructor (lines 30–97): validate `elementsSelector`, store the
configuration, discover elements and controls, populate `currentFilters` from
the controls' current values, and run the initial pass.  On a missing/empty
selector the constructor throws before anything is stored, which the model
expresses by returning `Except.error` carrying no engine and no events. -/
def construct (elementsSelector : Option String) (allValue : String)
    (matchMode : MatchMode) (statusFormatter : Nat → String)
    (onBeforeFilter : Option BeforeHook) (onAfterFilter : Option AfterHook)
    (env : DomEnv) : Except String (Engine × List Event) :=
  if jsFalsyStr elementsSelector then
    Except.error "GenericElementFilter: elementsSelector is required as first argument."
  else
    match filterElements
        { allValue := allValue
          matchMode := matchMode
          statusFormatter := statusFormatter
          currentFilters := initFilters env.discoveredFilters
          elements := env.discoveredElements
          filters := env.discoveredFilters
          noResultsMessage := env.noResultsFound
          statusElement := env.statusFound }
        onBeforeFilter onAfterFilter with
    | (e', tr, Except.ok _) => Except.ok (e', tr)
    | (_, _, Except.error msg) => Except.error msg

/-- `updateFilter` (lines 225–239): record the changed control's value in
`currentFilters` and run a pass.  The view-transition wrapper only decides
*when* the synchronous `runFilter` callback executes, so the model runs the
pass directly. -/
def updateFilter (e : Engine) (name value : String)
    (onBeforeFilter : Option BeforeHook) (onAfterFilter : Option AfterHook) :
    Engine × List Event × Except String (Nat × Nat) :=
  filterElements { e with currentFilters := setKey e.currentFilters name value }
    onBeforeFilter onAfterFilter

/-- `refreshElements` (lines 349–352): re-run element discovery (the rebuilt
element list and re-queried auxiliary elements are supplied by the
environment) and run a pass. -/
def refreshElements (e : Engine) (newElements : List Elem)
    (newNoResults : Option Bool) (newStatus : Option String)
    (onBeforeFilter : Option BeforeHook) (onAfterFilter : Option AfterHook) :
    Engine × List Event × Except String (Nat × Nat) :=
  filterElements
    { e with
      elements := newElements
      noResultsMessage := newNoResults
      statusElement := newStatus }
    onBeforeFilter onAfterFilter

/-- The per-control mutation of `reset` (lines 363–394): a select is set to
the match-all value when it offers it, else to its first option (if any; an
option-less select is not touched, and its `value` property reads `""`);
a checkbox/radio is unchecked; a text input is cleared; anything else is left
alone. -/
def resetControl (allValue : String) : Control → Control
  | Control.select n opts v =>
    if opts.contains allValue then Control.select n opts allValue
    else
      match opts with
      | o :: _ => Control.select n opts o
      | [] => Control.select n opts v
  | Control.toggle n v _ => Control.toggle n v false
  | Control.textInput n _ => Control.textInput n ""
  | Control.other n v => Control.other n v

/-- The state value `reset` writes for a control: for a select, the control's
value after the mutation (`filter.value ?? this.allValue`); for
checkbox/radio, text and fallback controls, the match-all value. -/
def resetStateValue (allValue : String) (c : Control) : String :=
  match c with
  | Control.select _ _ _ => (resetControl allValue c).value
  | _ => allValue

/-- The `this.filters.forEach(...)` loop of `reset`: mutate each control and
write its key's new value into `currentFilters`; controls with an empty
(falsy) `name` are skipped entirely. -/
def resetControls (allValue : String) :
    List Control → List (String × String) → List Control × List (String × String)
  | [], m => ([], m)
  | c :: cs, m =>
    if c.name = "" then
      let r := resetControls allValue cs m
      (c :: r.1, r.2)
    else
      let r := resetControls allValue cs (setKey m c.name (resetStateValue allValue c))
      (resetControl allValue c :: r.1, r.2)

/-- `reset` (lines 360–397): return immediately when no controls are
registered; otherwise reset every control, update `currentFilters`, and run
exactly one pass. -/
def reset (e : Engine) (onBeforeFilter : Option BeforeHook)
    (onAfterFilter : Option AfterHook) : Engine × List Event × Except String Unit :=
  if e.filters.isEmpty then (e, [], Except.ok ())
  else
    let r := resetControls e.allValue e.filters e.currentFilters
    let p := filterElements { e with filters := r.1, currentFilters := r.2 }
      onBeforeFilter onAfterFilter
    (p.1, p.2.1, p.2.2.map (fun _ => ()))

/-- The keys of a filter-state mapping. -/
def stateKeys (m : List (String × String)) : List String :=
  m.map Prod.fst

/-- The filter-state invariant of §3 of the spec: every key carries exactly
one current value (no duplicate bindings), and every registered control's key
is present in the state. -/
def FilterInvariant (e : Engine) : Prop :=
  (stateKeys e.currentFilters).Nodup ∧
    ∀ c ∈ e.filters, c.name ∈ stateKeys e.currentFilters

instance (e : Engine) : Decidable (FilterInvariant e) := by
  unfold FilterInvariant
  infer_instance


/-- A small concrete engine (two season cards, one season select) used to
evaluate the theorems on explicit input. -/
def sampleEngine : Engine :=
  { allValue := "all"
    matchMode := MatchMode.equals
    statusFormatter := defaultStatusFormatter
    currentFilters := [("season", "spring")]
    elements := [⟨[("season", "spring")], false⟩, ⟨[("season", "summer")], false⟩]
    filters := [Control.select "season" ["all", "spring", "summer"] "spring"]
    noResultsMessage := some true
    statusElement := some "" }

/-- Like `sampleEngine`, but its select control offers no match-all option. -/
def engineNoAllOption : Engine :=
  { sampleEngine with
    filters := [Control.select "season" ["spring", "summer"] "summer"]
    currentFilters := [("season", "summer")] }

/-- Like `sampleEngine`, but its select control has no options at all; the
DOM then forces the control's `value` property to `""`, and initialization
records `("season", "")`. -/
def engineEmptySelect : Engine :=
  { sampleEngine with
    filters := [Control.select "season" [] ""]
    currentFilters := [("season", "")]
    elements := [] }

/-- Like `sampleEngine`, but the select control's `name` is empty (an element
with an empty `name` attribute is still matched by `select[name]`), so
`reset` skips it while its key `""` is registered. -/
def engineEmptyName : Engine :=
  { sampleEngine with
    filters := [Control.select "" ["spring", "summer"] "summer"]
    currentFilters := [("", "summer")] }

/-- Like `sampleEngine`, but a public `updateFilter` call has recorded a key
`"ghost"` that no registered control bears, and the second element declares
`data-ghost="y"`. -/
def engineAlienKey : Engine :=
  { sampleEngine with
    currentFilters := [("season", "spring"), ("ghost", "x")]
    elements := [⟨[("season", "spring")], false⟩, ⟨[("ghost", "y")], false⟩] }

/-- Like `sampleEngine`, but with no registered controls. -/
def engineNoControls : Engine :=
  { sampleEngine with filters := [] }

/-! ## Helper lemmas: trimming and tokenization -/

theorem ne_comma_of_isWs {w : Char} (hw : isWs w = true) : w ≠ ',' := by
  intro h
  subst h
  exact absurd hw (by decide)

theorem jsTrimChars_nil : jsTrimChars [] = [] := rfl

theorem jsTrimChars_cons_ws {w : Char} (hw : isWs w = true) (l : List Char) :
    jsTrimChars (w :: l) = jsTrimChars l := by
  simp [jsTrimChars, List.dropWhile_cons, hw]

theorem dropWhile_append_single (p : Char → Bool) (w : Char) :
    ∀ l : List Char, List.dropWhile p (l ++ [w]) =
      if (List.dropWhile p l).isEmpty then List.dropWhile p [w]
      else List.dropWhile p l ++ [w]
  | [] => by simp
  | c :: l => by
    by_cases hc : p c
    · simpa [List.dropWhile_cons, hc] using dropWhile_append_single p w l
    · simp [List.dropWhile_cons, hc]

theorem jsTrimChars_snoc_ws {w : Char} (hw : isWs w = true) (l : List Char) :
    jsTrimChars (l ++ [w]) = jsTrimChars l := by
  unfold jsTrimChars
  rw [dropWhile_append_single]
  by_cases h : (List.dropWhile isWs l).isEmpty
  · simp only [h, if_true]
    simp [List.dropWhile_cons, hw, List.isEmpty_iff.mp h]
  · rw [if_neg h, List.reverse_append]
    simp [List.dropWhile_cons, hw]

theorem hasComma_cons_ne {c : Char} (hc : c ≠ ',') (l : List Char) :
    hasComma (c :: l) = hasComma l := by
  simp [hasComma, List.any_cons, hc]

theorem hasComma_snoc_ne {c : Char} (hc : c ≠ ',') (l : List Char) :
    hasComma (l ++ [c]) = hasComma l := by
  simp [hasComma, List.any_append, List.any_cons, hc]

theorem splitCommaChars_ne_nil : ∀ l : List Char, splitCommaChars l ≠ []
  | [] => by simp [splitCommaChars]
  | c :: l => by
    by_cases hc : c = ','
    · simp [splitCommaChars, hc]
    · simp only [splitCommaChars, hc, if_false]
      cases h : splitCommaChars l <;> simp

theorem splitCommaChars_cons_ne {c : Char} (hc : c ≠ ',') (l : List Char) :
    ∃ p ps, splitCommaChars l = p :: ps ∧ splitCommaChars (c :: l) = (c :: p) :: ps := by
  cases h : splitCommaChars l with
  | nil => exact absurd h (splitCommaChars_ne_nil l)
  | cons p ps => exact ⟨p, ps, rfl, by simp [splitCommaChars, hc, h]⟩

theorem splitCommaChars_snoc_ne {w : Char} (hw : w ≠ ',') :
    ∀ l : List Char, splitCommaChars (l ++ [w]) = snocLast (splitCommaChars l) w
  | [] => by simp [splitCommaChars, snocLast, hw]
  | c :: l => by
    by_cases hc : c = ','
    · subst hc
      show splitCommaChars (',' :: (l ++ [w])) = snocLast (splitCommaChars (',' :: l)) w
      rw [show splitCommaChars (',' :: (l ++ [w])) = [] :: splitCommaChars (l ++ [w]) from by
            simp [splitCommaChars],
          show splitCommaChars (',' :: l) = [] :: splitCommaChars l from by simp [splitCommaChars],
          splitCommaChars_snoc_ne hw l]
      cases h : splitCommaChars l with
      | nil => exact absurd h (splitCommaChars_ne_nil l)
      | cons p ps => simp [h, snocLast]
    · have hl := splitCommaChars_snoc_ne hw l
      cases h : splitCommaChars l with
      | nil => exact absurd h (splitCommaChars_ne_nil l)
      | cons p ps =>
        rw [h] at hl
        cases ps with
        | nil => simp [splitCommaChars, hc, hl, h, snocLast]
        | cons q qs => simp [splitCommaChars, hc, hl, h, snocLast]

theorem trimmedTokens_nil : trimmedTokens [] = [] := rfl

theorem trimmedTokens_cons (p : List Char) (ps : List (List Char)) :
    trimmedTokens (p :: ps) =
      if (jsTrimChars p).isEmpty then trimmedTokens ps
      else jsTrimChars p :: trimmedTokens ps := by
  by_cases h : (jsTrimChars p).isEmpty <;>
    simp [trimmedTokens, List.filter_cons, h]

theorem trimmedTokens_snocLast_ws {w : Char} (hw : isWs w = true) :
    ∀ ls : List (List Char), trimmedTokens (snocLast ls w) = trimmedTokens ls
  | [] => by
    have h1 : jsTrimChars [w] = [] := by
      rw [show [w] = w :: ([] : List Char) from rfl, jsTrimChars_cons_ws hw, jsTrimChars_nil]
    simp [snocLast, trimmedTokens_cons, h1, trimmedTokens_nil]
  | [p] => by
    simp [snocLast, trimmedTokens_cons, jsTrimChars_snoc_ws hw]
  | p :: q :: ps => by
    have ih := trimmedTokens_snocLast_ws hw (q :: ps)
    simp only [snocLast, trimmedTokens_cons, ih]

theorem splitWsChars_ne_nil : ∀ l : List Char, splitWsChars l ≠ []
  | [] => by simp [splitWsChars]
  | c :: l => by
    by_cases hc : isWs c
    · cases l with
      | nil => simp [splitWsChars, hc]
      | cons c' l' =>
        by_cases hc' : isWs c'
        · simpa [splitWsChars, hc, hc'] using splitWsChars_ne_nil (c' :: l')
        · simp [splitWsChars, hc, hc']
    · simp only [splitWsChars, hc, if_false]
      cases h : splitWsChars l <;> simp

theorem endsWs_cons_cons (c c' : Char) (l : List Char) :
    endsWs (c :: c' :: l) = endsWs (c' :: l) := rfl

theorem splitWsChars_snoc_ws {w : Char} (hw : isWs w = true) :
    ∀ l : List Char, splitWsChars (l ++ [w]) =
      if endsWs l then splitWsChars l else splitWsChars l ++ [[]]
  | [] => by simp [splitWsChars, endsWs, hw]
  | [c] => by
    by_cases hc : isWs c
    · simp [splitWsChars, endsWs, hw, hc]
    · simp [splitWsChars, endsWs, hw, hc]
  | c :: c' :: l' => by
    have ih := splitWsChars_snoc_ws hw (c' :: l')
    by_cases hc : isWs c
    · by_cases hc' : isWs c'
      · show splitWsChars (c :: (c' :: l' ++ [w])) = _
        rw [show splitWsChars (c :: (c' :: l' ++ [w])) = splitWsChars (c' :: l' ++ [w]) from by
              simp [splitWsChars, hc, hc'],
            ih, endsWs_cons_cons,
            show splitWsChars (c :: c' :: l') = splitWsChars (c' :: l') from by
              simp [splitWsChars, hc, hc']]
      · show splitWsChars (c :: (c' :: l' ++ [w])) = _
        rw [show splitWsChars (c :: (c' :: l' ++ [w])) = [] :: splitWsChars (c' :: l' ++ [w]) from by
              simp [splitWsChars, hc, hc'],
            ih, endsWs_cons_cons,
            show splitWsChars (c :: c' :: l') = [] :: splitWsChars (c' :: l') from by
              simp [splitWsChars, hc, hc']]
        by_cases he : endsWs (c' :: l') <;> simp [he]
    · cases h : splitWsChars (c' :: l') with
      | nil => exact absurd h (splitWsChars_ne_nil _)
      | cons p ps =>
        rw [h] at ih
        show splitWsChars (c :: (c' :: l' ++ [w])) = _
        rw [show splitWsChars (c :: (c' :: l' ++ [w])) =
              (match splitWsChars (c' :: l' ++ [w]) with
               | [] => [[c]]
               | p :: ps => (c :: p) :: ps) from by
              simp [splitWsChars, hc],
            ih, endsWs_cons_cons,
            show splitWsChars (c :: c' :: l') =
              (match splitWsChars (c' :: l') with
               | [] => [[c]]
               | p :: ps => (c :: p) :: ps) from by
              simp [splitWsChars, hc],
            h]
        by_cases he : endsWs (c' :: l') <;> simp [he]

theorem trimmedTokens_append_empty (ls : List (List Char)) :
    trimmedTokens (ls ++ [[]]) = trimmedTokens ls := by
  simp [trimmedTokens, List.map_append, List.filter_append, jsTrimChars_nil]

theorem specTokens_nil : specTokens [] = [] := rfl

theorem specTokens_cons_ws {w : Char} (hw : isWs w = true) (l : List Char) :
    specTokens (w :: l) = specTokens l := by
  have hwc : w ≠ ',' := ne_comma_of_isWs hw
  unfold specTokens
  rw [hasComma_cons_ne hwc]
  cases hcm : hasComma l with
  | true =>
    simp only [if_true]
    obtain ⟨p, ps, h1, h2⟩ := splitCommaChars_cons_ne hwc l
    rw [h1, h2, trimmedTokens_cons, trimmedTokens_cons, jsTrimChars_cons_ws hw]
  | false =>
    simp only [Bool.false_eq_true, if_false]
    cases l with
    | nil =>
      show trimmedTokens (splitWsChars [w]) = trimmedTokens (splitWsChars [])
      have h1 : jsTrimChars [w] = [] := by
        rw [show [w] = w :: ([] : List Char) from rfl, jsTrimChars_cons_ws hw, jsTrimChars_nil]
      simp [splitWsChars, hw, trimmedTokens_cons, h1, jsTrimChars_nil]
    | cons c l' =>
      by_cases hc : isWs c
      · rw [show splitWsChars (w :: c :: l') = splitWsChars (c :: l') from by
              simp [splitWsChars, hw, hc]]
      · rw [show splitWsChars (w :: c :: l') = [] :: splitWsChars (c :: l') from by
              simp [splitWsChars, hw, hc],
            trimmedTokens_cons]
        simp [jsTrimChars_nil]

theorem specTokens_snoc_ws {w : Char} (hw : isWs w = true) (l : List Char) :
    specTokens (l ++ [w]) = specTokens l := by
  have hwc : w ≠ ',' := ne_comma_of_isWs hw
  unfold specTokens
  rw [hasComma_snoc_ne hwc]
  cases hcm : hasComma l with
  | true =>
    simp only [if_true]
    rw [splitCommaChars_snoc_ne hwc, trimmedTokens_snocLast_ws hw]
  | false =>
    simp only [Bool.false_eq_true, if_false]
    rw [splitWsChars_snoc_ws hw]
    by_cases he : endsWs l
    · simp [he]
    · simp [he, trimmedTokens_append_empty]

theorem specTokens_dropWhile_ws : ∀ l : List Char, specTokens (l.dropWhile isWs) = specTokens l
  | [] => rfl
  | c :: l => by
    by_cases hc : isWs c
    · rw [List.dropWhile_cons_of_pos hc, specTokens_dropWhile_ws l, specTokens_cons_ws hc]
    · rw [List.dropWhile_cons_of_neg (by simp [hc])]

theorem specTokens_reverse_dropWhile_ws :
    ∀ l : List Char, specTokens (l.dropWhile isWs).reverse = specTokens l.reverse
  | [] => rfl
  | c :: l => by
    by_cases hc : isWs c
    · rw [List.dropWhile_cons_of_pos hc, specTokens_reverse_dropWhile_ws l,
          List.reverse_cons, specTokens_snoc_ws hc]
    · rw [List.dropWhile_cons_of_neg (by simp [hc])]

theorem specTokens_jsTrim (l : List Char) : specTokens (jsTrimChars l) = specTokens l := by
  unfold jsTrimChars
  rw [specTokens_reverse_dropWhile_ws ((l.dropWhile isWs).reverse), List.reverse_reverse,
      specTokens_dropWhile_ws]

theorem containsTokenMatch_iff (ev fv : List Char) :
    containsTokenMatch ev fv = true ↔ fv ∈ specTokens ev := by
  rw [← specTokens_jsTrim ev]
  by_cases h : (jsTrimChars ev).isEmpty
  · have hnil : jsTrimChars ev = [] := List.isEmpty_iff.mp h
    simp [containsTokenMatch, hnil, specTokens_nil]
  · simp only [containsTokenMatch, h, Bool.false_eq_true, if_false, List.any_eq_true,
               beq_iff_eq, specTokens, trimmedTokens]
    constructor
    · rintro ⟨t, ht, rfl⟩
      exact ht
    · intro ht
      exact ⟨fv, ht, rfl⟩

/-! ## Helper lemmas: the filtering pass -/

theorem elementMatches_config (e : Engine) (els : List Elem) (nr : Option Bool)
    (st : Option String) (el : Elem) :
    elementMatches
      { e with elements := els, noResultsMessage := nr, statusElement := st } el
      = elementMatches e el := rfl

theorem filterElementsBody_fst (e : Engine) (oa : Option AfterHook) (trHead : List Event) :
    (filterElementsBody e oa trHead).1 =
      { e with
        elements := e.elements.map (fun el => { el with hidden := !(elementMatches e el) })
        noResultsMessage := e.noResultsMessage.map (fun _ => e.elements.any (elementMatches e))
        statusElement := e.statusElement.map
          (fun _ => e.statusFormatter (e.elements.countP (fun el => elementMatches e el))) } := by
  obtain ⟨av, mm, fmt, cf, els, fls, nr, st⟩ := e
  cases nr <;> cases st <;> cases oa <;> rfl

theorem filterElementsBody_trace (e : Engine) (oa : Option AfterHook) (trHead : List Event) :
    (filterElementsBody e oa trHead).2.1 =
      trHead ++ e.elements.enum.map (fun p => Event.setVisibility p.1 (elementMatches e p.2))
        ++ (match e.noResultsMessage with
            | some _ => [Event.setNoResults (e.elements.any (elementMatches e))]
            | none => [])
        ++ (match e.statusElement with
            | some _ => [Event.setStatus
                (e.statusFormatter (e.elements.countP (fun el => elementMatches e el)))]
            | none => [])
        ++ (match oa with
            | some _ => [Event.afterHook
                (e.elements.countP (fun el => elementMatches e el)) e.elements.length]
            | none => []) := by
  obtain ⟨av, mm, fmt, cf, els, fls, nr, st⟩ := e
  cases nr <;> cases st <;> cases oa <;> simp [filterElementsBody]

theorem filterElementsBody_outcome_none (e : Engine) (trHead : List Event) :
    (filterElementsBody e none trHead).2.2 =
      Except.ok (e.elements.countP (fun el => elementMatches e el), e.elements.length) := by
  obtain ⟨av, mm, fmt, cf, els, fls, nr, st⟩ := e
  cases nr <;> cases st <;> rfl

theorem filterElements_none_eq (e : Engine) (oa : Option AfterHook) :
    filterElements e none oa = filterElementsBody e oa [Event.passRun] := rfl

theorem filterElements_fst_of_ok (e : Engine) (f : BeforeHook) (oa : Option AfterHook)
    (p : HookPayload)
    (hf : f { currentFilters := e.currentFilters, elements := e.elements } = Except.ok p) :
    filterElements e (some f) oa =
      filterElementsBody e oa [Event.passRun, Event.beforeHook] := by
  have hstep : filterElements e (some f) oa =
      match f { currentFilters := e.currentFilters, elements := e.elements } with
      | Except.error msg => (e, [Event.passRun, Event.beforeHook], Except.error msg)
      | Except.ok _ => filterElementsBody e oa [Event.passRun, Event.beforeHook] := rfl
  rw [hstep, hf]

theorem filterElements_of_before_error (e : Engine) (f : BeforeHook)
    (oa : Option AfterHook) (msg : String)
    (hf : f { currentFilters := e.currentFilters, elements := e.elements } =
      Except.error msg) :
    filterElements e (some f) oa =
      (e, [Event.passRun, Event.beforeHook], Except.error msg) := by
  have hstep : filterElements e (some f) oa =
      match f { currentFilters := e.currentFilters, elements := e.elements } with
      | Except.error m => (e, [Event.passRun, Event.beforeHook], Except.error m)
      | Except.ok _ => filterElementsBody e oa [Event.passRun, Event.beforeHook] := rfl
  rw [hstep, hf]

theorem isPassRun_setVisibility (i : Nat) (b : Bool) :
    (Event.setVisibility i b == Event.passRun) = false := rfl

theorem countP_passRun_body (e : Engine) (oa : Option AfterHook) (trHead : List Event) :
    (filterElementsBody e oa trHead).2.1.countP (fun ev => ev == Event.passRun) =
      trHead.countP (fun ev => ev == Event.passRun) := by
  rw [filterElementsBody_trace]
  repeat rw [List.countP_append]
  have h1 : (e.elements.enum.map
      (fun p => Event.setVisibility p.1 (elementMatches e p.2))).countP
      (fun ev => ev == Event.passRun) = 0 := by
    apply List.countP_eq_zero.mpr
    intro ev hev
    obtain ⟨p, _, rfl⟩ := List.mem_map.mp hev
    simp
  have h2 : ∀ b : Bool, ([Event.setNoResults b].countP (fun ev => ev == Event.passRun)) = 0 := by
    intro b
    simp [List.countP_cons]
  rw [h1]
  cases e.noResultsMessage <;> cases e.statusElement <;> cases oa <;>
    simp [List.countP_cons, List.countP_nil]

theorem countP_passRun_filterElements (e : Engine) (ob : Option BeforeHook)
    (oa : Option AfterHook) :
    (filterElements e ob oa).2.1.countP (fun ev => ev == Event.passRun) = 1 := by
  cases ob with
  | none =>
    rw [filterElements_none_eq, countP_passRun_body]
    rfl
  | some f =>
    cases hf : f { currentFilters := e.currentFilters, elements := e.elements } with
    | error msg =>
      rw [filterElements_of_before_error e f oa msg hf]
      rfl
    | ok p =>
      rw [filterElements_fst_of_ok e f oa p hf, countP_passRun_body]
      rfl

theorem filterElements_currentFilters (e : Engine) (ob : Option BeforeHook)
    (oa : Option AfterHook) : (filterElements e ob oa).1.currentFilters = e.currentFilters := by
  cases ob with
  | none => rw [filterElements_none_eq, filterElementsBody_fst]
  | some f =>
    cases hf : f { currentFilters := e.currentFilters, elements := e.elements } with
    | error msg => rw [filterElements_of_before_error e f oa msg hf]
    | ok p => rw [filterElements_fst_of_ok e f oa p hf, filterElementsBody_fst]

theorem filterElements_filters (e : Engine) (ob : Option BeforeHook)
    (oa : Option AfterHook) : (filterElements e ob oa).1.filters = e.filters := by
  cases ob with
  | none => rw [filterElements_none_eq, filterElementsBody_fst]
  | some f =>
    cases hf : f { currentFilters := e.currentFilters, elements := e.elements } with
    | error msg => rw [filterElements_of_before_error e f oa msg hf]
    | ok p => rw [filterElements_fst_of_ok e f oa p hf, filterElementsBody_fst]

/-! ## Helper lemmas: the filter-state store -/

theorem setKey_any_iff (m : List (String × String)) (k : String) :
    (m.any (fun p => p.1 = k)) = true ↔ k ∈ stateKeys m := by
  simp only [stateKeys, List.any_eq_true, List.mem_map, decide_eq_true_eq]

theorem stateKeys_setKey (m : List (String × String)) (k v : String) :
    stateKeys (setKey m k v) =
      if k ∈ stateKeys m then stateKeys m else stateKeys m ++ [k] := by
  unfold setKey
  by_cases h : k ∈ stateKeys m
  · rw [if_pos ((setKey_any_iff m k).mpr h), if_pos h]
    simp only [stateKeys, List.map_map]
    apply List.map_congr_left
    intro p _
    by_cases hp : p.1 = k <;> simp [hp]
  · have hb : ¬ (m.any (fun p => p.1 = k) = true) :=
      fun hc => h ((setKey_any_iff m k).mp hc)
    rw [if_neg hb, if_neg h]
    simp [stateKeys]

theorem stateKeys_setKey_nodup (m : List (String × String)) (k v : String)
    (h : (stateKeys m).Nodup) : (stateKeys (setKey m k v)).Nodup := by
  rw [stateKeys_setKey]
  by_cases hk : k ∈ stateKeys m
  · simpa [hk] using h
  · simp [hk, List.nodup_append, h]

theorem mem_stateKeys_setKey_self (m : List (String × String)) (k v : String) :
    k ∈ stateKeys (setKey m k v) := by
  rw [stateKeys_setKey]
  by_cases hk : k ∈ stateKeys m <;> simp [hk]

theorem stateKeys_setKey_superset (m : List (String × String)) (k v : String) :
    stateKeys m ⊆ stateKeys (setKey m k v) := by
  rw [stateKeys_setKey]
  by_cases hk : k ∈ stateKeys m
  · simp [hk]
  · simp only [hk, if_false]
    exact List.subset_append_left _ _

theorem setKey_mem {m : List (String × String)} {k v : String} {kv : String × String}
    (h : kv ∈ setKey m k v) : kv = (k, v) ∨ (kv ∈ m ∧ kv.1 ≠ k) := by
  unfold setKey at h
  by_cases ha : (m.any (fun p => p.1 = k)) = true
  · rw [if_pos ha] at h
    obtain ⟨p, hp, hfp⟩ := List.mem_map.mp h
    by_cases hpk : p.1 = k
    · left
      rw [if_pos hpk] at hfp
      exact hfp.symm
    · right
      rw [if_neg hpk] at hfp
      exact ⟨hfp ▸ hp, hfp ▸ hpk⟩
  · rw [if_neg ha] at h
    rcases List.mem_append.mp h with hm | hs
    · right
      refine ⟨hm, fun hk => ha ?_⟩
      exact List.any_eq_true.mpr ⟨kv, hm, by simp [hk]⟩
    · left
      simpa using hs

theorem setKey_mem_value {m : List (String × String)} {k v : String}
    {kv : String × String} (h : kv ∈ setKey m k v) (hk : kv.1 = k) : kv.2 = v := by
  rcases setKey_mem h with rfl | ⟨_, hne⟩
  · rfl
  · exact absurd hk hne

theorem foldl_setKey_nodup (cs : List Control) :
    ∀ m : List (String × String), (stateKeys m).Nodup →
      (stateKeys (cs.foldl (fun m c => setKey m c.name c.value) m)).Nodup := by
  induction cs with
  | nil => intro m h; exact h
  | cons c cs ih =>
    intro m h
    exact ih _ (stateKeys_setKey_nodup _ _ _ h)

theorem foldl_setKey_superset (cs : List Control) :
    ∀ m : List (String × String),
      stateKeys m ⊆ stateKeys (cs.foldl (fun m c => setKey m c.name c.value) m) := by
  induction cs with
  | nil => intro m; exact fun _ h => h
  | cons c cs ih =>
    intro m
    exact (stateKeys_setKey_superset _ _ _).trans (ih _)

theorem foldl_setKey_mem (cs : List Control) :
    ∀ m : List (String × String), ∀ c ∈ cs,
      c.name ∈ stateKeys (cs.foldl (fun m c => setKey m c.name c.value) m) := by
  induction cs with
  | nil => intro m c hc; exact absurd hc (List.not_mem_nil c)
  | cons c0 cs ih =>
    intro m c hc
    rcases List.mem_cons.mp hc with rfl | hc'
    · exact foldl_setKey_superset cs _ (mem_stateKeys_setKey_self _ _ _)
    · exact ih _ c hc'

theorem initFilters_nodup (cs : List Control) : (stateKeys (initFilters cs)).Nodup :=
  foldl_setKey_nodup cs [] (by simp [stateKeys])

theorem initFilters_mem (cs : List Control) : ∀ c ∈ cs, c.name ∈ stateKeys (initFilters cs) :=
  foldl_setKey_mem cs []

/-! ## Helper lemmas: the matching predicate -/

theorem matchesFilterEntry_equals_iff (allValue : String)
    (dataset : List (String × String)) (k v : String) :
    matchesFilterEntry MatchMode.equals allValue dataset (k, v) = true ↔
      v = allValue ∨ List.lookup k dataset = none ∨ List.lookup k dataset = some v := by
  unfold matchesFilterEntry
  by_cases h : v = allValue
  · simp [h]
  · rw [if_neg h]
    cases hl : List.lookup k dataset with
    | none => simp [h]
    | some ev =>
      show (ev == v) = true ↔ _
      simp only [beq_iff_eq, Option.some.injEq]
      constructor
      · intro h1
        exact Or.inr (Or.inr h1)
      · rintro (h1 | h1 | h1)
        · exact absurd h1 h
        · exact absurd h1 (by simp)
        · exact h1

theorem matchesAllFilters_eq_true_iff (mode : MatchMode) (allValue : String)
    (currentFilters dataset : List (String × String)) :
    matchesAllFilters mode allValue currentFilters dataset = true ↔
      ∀ kv ∈ currentFilters, matchesFilterEntry mode allValue dataset kv = true := by
  simp [matchesAllFilters, List.all_eq_true]

theorem elementMatches_equals_iff (e : Engine) (el : Elem)
    (hmode : e.matchMode = MatchMode.equals) :
    elementMatches e el = true ↔
      ∀ kv ∈ e.currentFilters, kv.2 = e.allValue ∨ List.lookup kv.1 el.dataset = none ∨
        List.lookup kv.1 el.dataset = some kv.2 := by
  unfold elementMatches
  rw [hmode, matchesAllFilters_eq_true_iff]
  constructor
  · intro h kv hkv
    exact (matchesFilterEntry_equals_iff e.allValue el.dataset kv.1 kv.2).mp (h kv hkv)
  · intro h kv hkv
    exact (matchesFilterEntry_equals_iff e.allValue el.dataset kv.1 kv.2).mpr (h kv hkv)

/-! ## The claims -/

/-- C1: in `equals` mode, after a pass an element is visible iff every key of
the filter state contributes true — the key's state value is the match-all
sentinel, or the element declares no attribute for the key, or the declared
value is exactly string-equal to the filter value; in particular an element
with no declared attribute for any filter key is always visible. -/
theorem claim_C1_visibility (e : Engine) (i : Nat) (el : Elem)
    (hmode : e.matchMode = MatchMode.equals)
    (hel : e.elements[i]? = some el) :
    ∃ el', (filterElements e none none).1.elements[i]? = some el' ∧
      el'.dataset = el.dataset ∧
      (el'.hidden = false ↔
        ∀ kv ∈ e.currentFilters,
          kv.2 = e.allValue ∨ List.lookup kv.1 el.dataset = none ∨
            List.lookup kv.1 el.dataset = some kv.2) ∧
      ((∀ kv ∈ e.currentFilters, List.lookup kv.1 el.dataset = none) →
        el'.hidden = false) := by
  refine ⟨{ el with hidden := !(elementMatches e el) }, ?_, rfl, ?_, ?_⟩
  · rw [filterElements_none_eq, filterElementsBody_fst]
    show (e.elements.map fun el => { el with hidden := !(elementMatches e el) })[i]? = _
    rw [List.getElem?_map, hel]
    rfl
  · show (!(elementMatches e el)) = false ↔ _
    rw [Bool.not_eq_false']
    exact elementMatches_equals_iff e el hmode
  · intro hnone
    show (!(elementMatches e el)) = false
    rw [Bool.not_eq_false']
    exact (elementMatches_equals_iff e el hmode).mpr
      (fun kv hkv => Or.inr (Or.inl (hnone kv hkv)))

/-- Witness for C1: evaluating the theorem on `sampleEngine`'s first element. -/
theorem claim_C1_witness :
    ∃ el', (filterElements sampleEngine none none).1.elements[0]? = some el' ∧
      el'.dataset = [("season", "spring")] ∧
      (el'.hidden = false ↔
        ∀ kv ∈ sampleEngine.currentFilters,
          kv.2 = sampleEngine.allValue ∨
            List.lookup kv.1 [("season", "spring")] = none ∨
            List.lookup kv.1 [("season", "spring")] = some kv.2) ∧
      ((∀ kv ∈ sampleEngine.currentFilters,
          List.lookup kv.1 [("season", "spring")] = none) → el'.hidden = false) :=
  claim_C1_visibility sampleEngine 0 ⟨[("season", "spring")], false⟩ rfl rfl

/-- C2: in `contains` mode, for every declared attribute value and every
non-sentinel filter value, the key contributes true iff some token of the
declared value exactly equals the filter value — tokens being obtained by
splitting on commas if the declared value contains any comma and otherwise on
whitespace runs, trimming each token and dropping empty ones (`specTokens`);
including the claim's examples for `"forest, meadow"` and `"forest meadow"`. -/
theorem claim_C2_contains_tokens (k allValue declared filterValue : String)
    (h : filterValue ≠ allValue) :
    (matchesFilterEntry MatchMode.contains allValue [(k, declared)]
        (k, filterValue) = true ↔
      filterValue.data ∈ specTokens declared.data) ∧
    matchesFilterEntry MatchMode.contains "all" [("habitat", "forest, meadow")]
      ("habitat", "forest") = true ∧
    matchesFilterEntry MatchMode.contains "all" [("habitat", "forest, meadow")]
      ("habitat", "meadow") = true ∧
    matchesFilterEntry MatchMode.contains "all" [("habitat", "forest, meadow")]
      ("habitat", "fore") = false ∧
    matchesFilterEntry MatchMode.contains "all" [("habitat", "forest meadow")]
      ("habitat", "forest") = true ∧
    matchesFilterEntry MatchMode.contains "all" [("habitat", "forest meadow")]
      ("habitat", "meadow") = true ∧
    matchesFilterEntry MatchMode.contains "all" [("habitat", "forest meadow")]
      ("habitat", "fore") = false := by
  refine ⟨?_, by decide, by decide, by decide, by decide, by decide, by decide⟩
  unfold matchesFilterEntry
  rw [if_neg h,
      show List.lookup k [(k, declared)] = some declared from by simp [List.lookup]]
  exact containsTokenMatch_iff declared.data filterValue.data

/-- Witness for C2: the theorem evaluated at declared value
`"forest, meadow"` and filter value `"forest"`. -/
theorem claim_C2_witness :
    (matchesFilterEntry MatchMode.contains "all" [("habitat", "forest, meadow")]
        ("habitat", "forest") = true ↔
      "forest".data ∈ specTokens "forest, meadow".data) ∧
    matchesFilterEntry MatchMode.contains "all" [("habitat", "forest, meadow")]
      ("habitat", "forest") = true ∧
    matchesFilterEntry MatchMode.contains "all" [("habitat", "forest, meadow")]
      ("habitat", "meadow") = true ∧
    matchesFilterEntry MatchMode.contains "all" [("habitat", "forest, meadow")]
      ("habitat", "fore") = false ∧
    matchesFilterEntry MatchMode.contains "all" [("habitat", "forest meadow")]
      ("habitat", "forest") = true ∧
    matchesFilterEntry MatchMode.contains "all" [("habitat", "forest meadow")]
      ("habitat", "meadow") = true ∧
    matchesFilterEntry MatchMode.contains "all" [("habitat", "forest meadow")]
      ("habitat", "fore") = false :=
  claim_C2_contains_tokens "habitat" "all" "forest, meadow" "forest" (by decide)

/-- C3: a pass performs its effects in this order — per-element visibility in
discovery order, then the no-results update, then the status text, and only
then the after notification with `visibleCount` and `totalCount`; the
no-results indicator is shown (not hidden) iff `visibleCount = 0`; the status
text is the formatter applied to `visibleCount`, the default formatter
producing `"<n> results found"`. -/
theorem claim_C3_pass_ordering (e : Engine) (f : AfterHook)
    (hnr : e.noResultsMessage.isSome = true) (hst : e.statusElement.isSome = true) :
    (filterElements e none (some f)).2.1 =
      [Event.passRun]
        ++ e.elements.enum.map (fun p => Event.setVisibility p.1 (elementMatches e p.2))
        ++ [Event.setNoResults (e.elements.any (elementMatches e))]
        ++ [Event.setStatus (e.statusFormatter
              (e.elements.countP (fun el => elementMatches e el)))]
        ++ [Event.afterHook (e.elements.countP (fun el => elementMatches e el))
              e.elements.length] ∧
    ((e.elements.any (elementMatches e)) = false ↔
      e.elements.countP (fun el => elementMatches e el) = 0) ∧
    (∀ n, defaultStatusFormatter n = toString n ++ " results found") := by
  refine ⟨?_, ?_, fun n => rfl⟩
  · rw [filterElements_none_eq, filterElementsBody_trace]
    obtain ⟨b, hb⟩ := Option.isSome_iff_exists.mp hnr
    obtain ⟨t, ht⟩ := Option.isSome_iff_exists.mp hst
    rw [hb, ht]
  · rw [List.any_eq_false, List.countP_eq_zero]

/-- Witness for C3: the ordering theorem evaluated on `sampleEngine` with a
benign after hook. -/
theorem claim_C3_witness :
    ((filterElements sampleEngine none (some Except.ok)).2.1 =
      [Event.passRun]
        ++ sampleEngine.elements.enum.map
            (fun p => Event.setVisibility p.1 (elementMatches sampleEngine p.2))
        ++ [Event.setNoResults (sampleEngine.elements.any (elementMatches sampleEngine))]
        ++ [Event.setStatus (sampleEngine.statusFormatter
              (sampleEngine.elements.countP (fun el => elementMatches sampleEngine el)))]
        ++ [Event.afterHook
              (sampleEngine.elements.countP (fun el => elementMatches sampleEngine el))
              sampleEngine.elements.length] ∧
    ((sampleEngine.elements.any (elementMatches sampleEngine)) = false ↔
      sampleEngine.elements.countP (fun el => elementMatches sampleEngine el) = 0) ∧
    (∀ n, defaultStatusFormatter n = toString n ++ " results found")) :=
  claim_C3_pass_ordering sampleEngine Except.ok rfl rfl

/-- C5: running a pass twice with unchanged filter state and unchanged tracked
elements yields identical per-element visibility and identical
`(visibleCount, totalCount)`. -/
theorem claim_C5_idempotent (e : Engine) :
    ((filterElements (filterElements e none none).1 none none).1.elements =
      (filterElements e none none).1.elements) ∧
    ((filterElements (filterElements e none none).1 none none).2.2 =
      (filterElements e none none).2.2) := by
  have h1 : (filterElements e none none).1 =
      { e with
        elements := e.elements.map (fun el => { el with hidden := !(elementMatches e el) })
        noResultsMessage := e.noResultsMessage.map (fun _ => e.elements.any (elementMatches e))
        statusElement := e.statusElement.map
          (fun _ => e.statusFormatter (e.elements.countP (fun el => elementMatches e el))) } := by
    rw [filterElements_none_eq, filterElementsBody_fst]
  constructor
  · rw [h1, filterElements_none_eq, filterElementsBody_fst]
    show (e.elements.map _).map _ = e.elements.map _
    rw [List.map_map]
    apply List.map_congr_left
    intro el _
    rfl
  · rw [h1, filterElements_none_eq, filterElementsBody_outcome_none,
        filterElements_none_eq, filterElementsBody_outcome_none]
    show Except.ok (List.countP _ (e.elements.map _), (e.elements.map _).length) = _
    rw [List.countP_map, List.length_map]
    rfl

/-- C6: construction with a missing (`none`) or empty elements selector fails
immediately with the source's error message; the `Except.error` result carries
no engine and no events — no configuration is stored, no state is populated,
and no pass runs. -/
theorem claim_C6_construct_error (elementsSelector : Option String)
    (allValue : String) (matchMode : MatchMode) (statusFormatter : Nat → String)
    (onBeforeFilter : Option BeforeHook) (onAfterFilter : Option AfterHook)
    (env : DomEnv)
    (h : elementsSelector = none ∨ elementsSelector = some "") :
    construct elementsSelector allValue matchMode statusFormatter onBeforeFilter
        onAfterFilter env =
      Except.error
        "GenericElementFilter: elementsSelector is required as first argument." := by
  have hf : jsFalsyStr elementsSelector = true := by
    rcases h with rfl | rfl <;> rfl
  unfold construct
  rw [if_pos hf]

/-- Witness for C6: constructing with a missing selector. -/
theorem claim_C6_witness :
    construct none "all" MatchMode.equals defaultStatusFormatter none none
        ⟨[], [], none, none⟩ =
      Except.error
        "GenericElementFilter: elementsSelector is required as first argument." :=
  claim_C6_construct_error none "all" MatchMode.equals defaultStatusFormatter none none
    ⟨[], [], none, none⟩ (Or.inl rfl)

theorem filterElementsBody_outcome_after (e : Engine) (f : AfterHook)
    (trHead : List Event) :
    (filterElementsBody e (some f) trHead).2.2 =
      match f { currentFilters := e.currentFilters,
                visibleCount := e.elements.countP (fun el => elementMatches e el),
                totalCount := e.elements.length,
                elements := e.elements.map
                  (fun el => { el with hidden := !(elementMatches e el) }) } with
      | Except.error msg => Except.error msg
      | Except.ok _ =>
        Except.ok (e.elements.countP (fun el => elementMatches e el), e.elements.length) := by
  obtain ⟨av, mm, fmt, cf, els, fls, nr, st⟩ := e
  cases nr <;> cases st <;> rfl

theorem filterElements_datasets (e : Engine) (ob : Option BeforeHook)
    (oa : Option AfterHook) :
    (filterElements e ob oa).1.elements.map Elem.dataset =
      e.elements.map Elem.dataset := by
  have hmap : (e.elements.map
      (fun el => { el with hidden := !(elementMatches e el) })).map Elem.dataset =
      e.elements.map Elem.dataset := by
    rw [List.map_map]
    apply List.map_congr_left
    intro el _
    rfl
  cases ob with
  | none =>
    rw [filterElements_none_eq, filterElementsBody_fst]
    exact hmap
  | some f =>
    cases hf : f { currentFilters := e.currentFilters, elements := e.elements } with
    | error msg => rw [filterElements_of_before_error e f oa msg hf]
    | ok p =>
      rw [filterElements_fst_of_ok e f oa p hf, filterElementsBody_fst]
      exact hmap

/-- C7: an exception raised inside the before/after notification propagates to
the caller of the pass; a throwing before hook leaves the engine untouched,
and a throwing after hook leaves every visibility/no-results/status mutation
of the pass in place — the resulting engine equals that of a hook-free pass,
with the after notification as the final trace event. -/
theorem claim_C7_callback_errors (e : Engine) (fb : BeforeHook) (fa : AfterHook)
    (msgB msgA : String) (oa : Option AfterHook)
    (hb : ∀ p, fb p = Except.error msgB) (ha : ∀ p, fa p = Except.error msgA) :
    (filterElements e (some fb) oa =
      (e, [Event.passRun, Event.beforeHook], Except.error msgB)) ∧
    ((filterElements e none (some fa)).2.2 = Except.error msgA) ∧
    ((filterElements e none (some fa)).1 = (filterElements e none none).1) ∧
    ((filterElements e none (some fa)).2.1 =
      (filterElements e none none).2.1 ++
        [Event.afterHook (e.elements.countP (fun el => elementMatches e el))
          e.elements.length]) := by
  refine ⟨filterElements_of_before_error e fb oa msgB (hb _), ?_, ?_, ?_⟩
  · rw [filterElements_none_eq, filterElementsBody_outcome_after, ha]
  · rw [filterElements_none_eq, filterElements_none_eq, filterElementsBody_fst,
        filterElementsBody_fst]
  · rw [filterElements_none_eq, filterElements_none_eq, filterElementsBody_trace,
        filterElementsBody_trace]
    simp

/-- Witness for C7: throwing hooks on `sampleEngine`. -/
theorem claim_C7_witness :
    (filterElements sampleEngine (some (fun _ => Except.error "boom")) none =
      (sampleEngine, [Event.passRun, Event.beforeHook], Except.error "boom")) ∧
    ((filterElements sampleEngine none
        (some (fun _ => Except.error "late"))).2.2 = Except.error "late") ∧
    ((filterElements sampleEngine none (some (fun _ => Except.error "late"))).1 =
      (filterElements sampleEngine none none).1) ∧
    ((filterElements sampleEngine none (some (fun _ => Except.error "late"))).2.1 =
      (filterElements sampleEngine none none).2.1 ++
        [Event.afterHook
          (sampleEngine.elements.countP (fun el => elementMatches sampleEngine el))
          sampleEngine.elements.length]) :=
  claim_C7_callback_errors sampleEngine (fun _ => Except.error "boom")
    (fun _ => Except.error "late") "boom" "late" none (fun _ => rfl) (fun _ => rfl)

/-- C9: the notifications receive defensive copies of the filter state and of
the element sequence — whatever a callback turns its copy into (the payload it
returns), the pass result is identical to the one with a non-mutating
callback, the engine's filter state is unchanged, and the tracked element
sequence (its datasets, in order) is unchanged. -/
theorem claim_C9_defensive_copies (e : Engine)
    (g : HookPayload → HookPayload) (h : AfterPayload → AfterPayload) :
    (filterElements e (some (fun p => Except.ok (g p)))
        (some (fun p => Except.ok (h p))) =
      filterElements e (some Except.ok) (some Except.ok)) ∧
    ((filterElements e (some (fun p => Except.ok (g p)))
        (some (fun p => Except.ok (h p)))).1.currentFilters = e.currentFilters) ∧
    ((filterElements e (some (fun p => Except.ok (g p)))
        (some (fun p => Except.ok (h p)))).1.elements.map Elem.dataset =
      e.elements.map Elem.dataset) :=
  ⟨rfl, filterElements_currentFilters e _ _, filterElements_datasets e _ _⟩

/-- C10: `reset()` on an engine with no registered controls returns
immediately — no pass runs (empty event trace) and the engine, including its
filter state, every element's visibility, the no-results indicator and the
status text, is returned unchanged. -/
theorem claim_C10_reset_no_controls (e : Engine) (ob : Option BeforeHook)
    (oa : Option AfterHook) (h : e.filters = []) :
    reset e ob oa = (e, [], Except.ok ()) := by
  unfold reset
  rw [if_pos (by rw [h]; rfl)]

/-- Witness for C10: `reset` on the control-free engine. -/
theorem claim_C10_witness :
    reset engineNoControls none none = (engineNoControls, [], Except.ok ()) :=
  claim_C10_reset_no_controls engineNoControls none none rfl

/-! ## Helper lemmas: reset and construction -/

theorem resetControl_name (allValue : String) (c : Control) :
    (resetControl allValue c).name = c.name := by
  cases c with
  | select n opts v =>
    by_cases h : allValue ∈ opts
    · simp [resetControl, h, Control.name]
    · cases opts with
      | nil => rfl
      | cons o os => simp [resetControl, h, Control.name]
  | toggle n v b => rfl
  | textInput n v => rfl
  | other n v => rfl

theorem resetControls_names (allValue : String) :
    ∀ (cs : List Control) (m : List (String × String)),
      ((resetControls allValue cs m).1).map Control.name = cs.map Control.name
  | [], _ => rfl
  | c :: cs, m => by
    unfold resetControls
    by_cases h : c.name = ""
    · rw [if_pos h]
      simp [resetControls_names allValue cs m]
    · rw [if_neg h]
      simp [resetControls_names allValue cs _, resetControl_name]

theorem resetControls_keys_superset (allValue : String) :
    ∀ (cs : List Control) (m : List (String × String)),
      stateKeys m ⊆ stateKeys (resetControls allValue cs m).2
  | [], _ => fun _ h => h
  | c :: cs, m => by
    unfold resetControls
    by_cases h : c.name = ""
    · rw [if_pos h]
      exact resetControls_keys_superset allValue cs m
    · rw [if_neg h]
      exact (stateKeys_setKey_superset m c.name _).trans
        (resetControls_keys_superset allValue cs _)

theorem resetControls_keys_nodup (allValue : String) :
    ∀ (cs : List Control) (m : List (String × String)),
      (stateKeys m).Nodup → (stateKeys (resetControls allValue cs m).2).Nodup
  | [], _ => fun h => h
  | c :: cs, m => by
    intro h
    unfold resetControls
    by_cases hn : c.name = ""
    · rw [if_pos hn]
      exact resetControls_keys_nodup allValue cs m h
    · rw [if_neg hn]
      exact resetControls_keys_nodup allValue cs _ (stateKeys_setKey_nodup _ _ _ h)

theorem reset_fst_proj (e : Engine) (ob : Option BeforeHook) (oa : Option AfterHook)
    (h : ¬ e.filters.isEmpty = true) :
    (reset e ob oa).1.currentFilters =
        (resetControls e.allValue e.filters e.currentFilters).2 ∧
      (reset e ob oa).1.filters =
        (resetControls e.allValue e.filters e.currentFilters).1 := by
  unfold reset
  rw [if_neg h]
  exact ⟨filterElements_currentFilters _ ob oa, filterElements_filters _ ob oa⟩

theorem construct_ok_state (elementsSelector : Option String) (allValue : String)
    (matchMode : MatchMode) (statusFormatter : Nat → String)
    (ob : Option BeforeHook) (oa : Option AfterHook) (env : DomEnv)
    (e : Engine) (tr : List Event)
    (h : construct elementsSelector allValue matchMode statusFormatter ob oa env =
      Except.ok (e, tr)) :
    e.currentFilters = initFilters env.discoveredFilters ∧
      e.filters = env.discoveredFilters := by
  unfold construct at h
  by_cases hsel : jsFalsyStr elementsSelector = true
  · rw [if_pos hsel] at h
    exact absurd h (by simp)
  · rw [if_neg hsel] at h
    rcases hfe : filterElements
        { allValue := allValue, matchMode := matchMode,
          statusFormatter := statusFormatter,
          currentFilters := initFilters env.discoveredFilters,
          elements := env.discoveredElements, filters := env.discoveredFilters,
          noResultsMessage := env.noResultsFound, statusElement := env.statusFound }
        ob oa with ⟨e1, tr1, out⟩
    rw [hfe] at h
    cases out with
    | error msg => exact absurd h (by simp)
    | ok p =>
      have h1 : e1 = e := by
        have h' : Except.ok (ε := String) (e1, tr1) = Except.ok (e, tr) := h
        injection h' with h''
        exact congrArg (fun q => q.1) h''
      have hcf := filterElements_currentFilters
        { allValue := allValue, matchMode := matchMode,
          statusFormatter := statusFormatter,
          currentFilters := initFilters env.discoveredFilters,
          elements := env.discoveredElements, filters := env.discoveredFilters,
          noResultsMessage := env.noResultsFound, statusElement := env.statusFound }
        ob oa
      have hfl := filterElements_filters
        { allValue := allValue, matchMode := matchMode,
          statusFormatter := statusFormatter,
          currentFilters := initFilters env.discoveredFilters,
          elements := env.discoveredElements, filters := env.discoveredFilters,
          noResultsMessage := env.noResultsFound, statusElement := env.statusFound }
        ob oa
      rw [hfe] at hcf hfl
      rw [← h1]
      exact ⟨hcf, hfl⟩

/-- C8: the filter-state invariant — every registered control's key is mapped
to exactly one current value (keys are duplicate-free and cover the controls)
— is established by construction and preserved by `updateFilter`,
`refreshElements` and `reset`; and none of these operations ever removes a key
from the state. -/
theorem claim_C8_state_invariant :
    (∀ sel av mode fmt ob oa env (e : Engine) tr,
      construct sel av mode fmt ob oa env = Except.ok (e, tr) → FilterInvariant e) ∧
    (∀ (e : Engine) name value ob oa, FilterInvariant e →
      FilterInvariant (updateFilter e name value ob oa).1 ∧
        stateKeys e.currentFilters ⊆
          stateKeys (updateFilter e name value ob oa).1.currentFilters) ∧
    (∀ (e : Engine) els nr st ob oa, FilterInvariant e →
      FilterInvariant (refreshElements e els nr st ob oa).1 ∧
        stateKeys e.currentFilters ⊆
          stateKeys (refreshElements e els nr st ob oa).1.currentFilters) ∧
    (∀ (e : Engine) ob oa, FilterInvariant e →
      FilterInvariant (reset e ob oa).1 ∧
        stateKeys e.currentFilters ⊆ stateKeys (reset e ob oa).1.currentFilters) := by
  refine ⟨?_, ?_, ?_, ?_⟩
  · intro sel av mode fmt ob oa env e tr h
    obtain ⟨hcf, hfl⟩ := construct_ok_state sel av mode fmt ob oa env e tr h
    constructor
    · rw [hcf]
      exact initFilters_nodup _
    · intro c hc
      rw [hcf]
      exact initFilters_mem _ c (hfl ▸ hc)
  · intro e name value ob oa hInv
    have hcf : (updateFilter e name value ob oa).1.currentFilters =
        setKey e.currentFilters name value := filterElements_currentFilters _ ob oa
    have hfl : (updateFilter e name value ob oa).1.filters = e.filters :=
      filterElements_filters _ ob oa
    refine ⟨⟨?_, ?_⟩, ?_⟩
    · rw [hcf]
      exact stateKeys_setKey_nodup _ _ _ hInv.1
    · intro c hc
      rw [hcf]
      exact stateKeys_setKey_superset _ _ _ (hInv.2 c (hfl ▸ hc))
    · rw [hcf]
      exact stateKeys_setKey_superset _ _ _
  · intro e els nr st ob oa hInv
    have hcf : (refreshElements e els nr st ob oa).1.currentFilters =
        e.currentFilters := filterElements_currentFilters _ ob oa
    have hfl : (refreshElements e els nr st ob oa).1.filters = e.filters :=
      filterElements_filters _ ob oa
    refine ⟨⟨?_, ?_⟩, ?_⟩
    · rw [hcf]
      exact hInv.1
    · intro c hc
      rw [hcf]
      exact hInv.2 c (hfl ▸ hc)
    · rw [hcf]
      exact fun _ h => h
  · intro e ob oa hInv
    by_cases hemp : e.filters.isEmpty = true
    · have hr : reset e ob oa = (e, [], Except.ok ()) := by
        unfold reset
        rw [if_pos hemp]
      rw [hr]
      exact ⟨hInv, fun _ h => h⟩
    · obtain ⟨hcf, hfl⟩ := reset_fst_proj e ob oa hemp
      refine ⟨⟨?_, ?_⟩, ?_⟩
      · rw [hcf]
        exact resetControls_keys_nodup _ _ _ hInv.1
      · intro c hc
        rw [hcf]
        have hnames : c.name ∈ e.filters.map Control.name := by
          rw [← resetControls_names e.allValue e.filters e.currentFilters]
          exact List.mem_map_of_mem Control.name (hfl ▸ hc)
        obtain ⟨c0, hc0, hceq⟩ := List.mem_map.mp hnames
        rw [← hceq]
        exact resetControls_keys_superset _ _ _ (hInv.2 c0 hc0)
      · rw [hcf]
        exact resetControls_keys_superset _ _ _

/-- Witness for C8: the invariant holds after `updateFilter` on
`sampleEngine`. -/
theorem claim_C8_witness :
    FilterInvariant (updateFilter sampleEngine "season" "summer" none none).1 :=
  (claim_C8_state_invariant.2.1 sampleEngine "season" "summer" none none
    (by decide)).1

theorem matchesFilterEntry_sentinel (mode : MatchMode) (allValue : String)
    (dataset : List (String × String)) (kv : String × String)
    (h : kv.2 = allValue) : matchesFilterEntry mode allValue dataset kv = true := by
  unfold matchesFilterEntry
  rw [if_pos h]

theorem elementMatches_of_sentinel (e : Engine) (el : Elem)
    (h : ∀ kv ∈ e.currentFilters, kv.2 = e.allValue) : elementMatches e el = true := by
  unfold elementMatches
  rw [matchesAllFilters_eq_true_iff]
  intro kv hkv
  exact matchesFilterEntry_sentinel _ _ _ _ (h kv hkv)

theorem resetStateValue_select_sentinel (av n v : String) (opts : List String)
    (h : av ∈ opts) : resetStateValue av (Control.select n opts v) = av := by
  simp [resetStateValue, resetControl, h, Control.value]

theorem resetStateValue_select_first (av n v o : String) (os : List String)
    (hno : av ∉ o :: os) : resetStateValue av (Control.select n (o :: os) v) = o := by
  simp [resetStateValue, resetControl, hno, Control.value]

theorem resetControls_state_mem (av : String) :
    ∀ (cs : List Control) (m : List (String × String)) (kv : String × String),
      kv ∈ (resetControls av cs m).2 → kv ∈ m ∨ ∃ c ∈ cs, c.name = kv.1
  | [], m, kv => fun h => Or.inl h
  | c :: cs, m, kv => by
    unfold resetControls
    by_cases hn : c.name = ""
    · rw [if_pos hn]
      intro h
      rcases resetControls_state_mem av cs m kv h with hm | ⟨c0, hc0, he⟩
      · exact Or.inl hm
      · exact Or.inr ⟨c0, List.mem_cons_of_mem c hc0, he⟩
    · rw [if_neg hn]
      intro h
      rcases resetControls_state_mem av cs _ kv h with hm | ⟨c0, hc0, he⟩
      · rcases setKey_mem hm with rfl | ⟨hmm, _⟩
        · exact Or.inr ⟨c, List.mem_cons_self c cs, rfl⟩
        · exact Or.inl hmm
      · exact Or.inr ⟨c0, List.mem_cons_of_mem c hc0, he⟩

theorem resetControls_registered_values (av : String) :
    ∀ (cs : List Control) (m : List (String × String)),
      (∀ c ∈ cs, c.name ≠ "") →
      (∀ n opts v, Control.select n opts v ∈ cs → opts ≠ []) →
      ∀ kv ∈ (resetControls av cs m).2, (∃ c ∈ cs, c.name = kv.1) →
        kv.2 = av ∨ ∃ n opts v, Control.select n opts v ∈ cs ∧ n = kv.1 ∧
          av ∉ opts ∧ opts.head? = some kv.2
  | [], m => by
    rintro _ _ kv _ ⟨c, hc, _⟩
    exact absurd hc (List.not_mem_nil c)
  | c :: cs, m => by
    rintro hn hsel kv hkv hreg
    have hnc : c.name ≠ "" := hn c (List.mem_cons_self c cs)
    rw [resetControls, if_neg hnc] at hkv
    by_cases hcs : ∃ c' ∈ cs, c'.name = kv.1
    · rcases resetControls_registered_values av cs _
          (fun c' hc' => hn c' (List.mem_cons_of_mem c hc'))
          (fun n opts v hm => hsel n opts v (List.mem_cons_of_mem c hm))
          kv hkv hcs with hav | ⟨n, opts, v, hm, hrest⟩
      · exact Or.inl hav
      · exact Or.inr ⟨n, opts, v, List.mem_cons_of_mem c hm, hrest⟩
    · have hkname : kv.1 = c.name := by
        rcases hreg with ⟨c1, hc1, he1⟩
        rcases List.mem_cons.mp hc1 with rfl | hc1'
        · exact he1.symm
        · exact absurd ⟨c1, hc1', he1⟩ hcs
      have hmem : kv ∈ setKey m c.name (resetStateValue av c) := by
        rcases resetControls_state_mem av cs _ kv hkv with hm' | hwit
        · exact hm'
        · exact absurd hwit hcs
      have hval : kv.2 = resetStateValue av c := setKey_mem_value hmem hkname
      cases c with
      | select n opts v =>
        by_cases hin : av ∈ opts
        · rw [hval, resetStateValue_select_sentinel av n v opts hin]
          exact Or.inl rfl
        · cases opts with
          | nil =>
            exact absurd rfl (hsel n [] v (List.mem_cons_self _ _))
          | cons o os =>
            right
            refine ⟨n, o :: os, v, List.mem_cons_self _ _, ?_, hin, ?_⟩
            · exact hkname.symm
            · rw [hval, resetStateValue_select_first av n v o os hin]
              rfl
      | toggle n v b => exact Or.inl hval
      | textInput n v => exact Or.inl hval
      | other n v => exact Or.inl hval

theorem resetControls_values_sentinel (av : String) :
    ∀ (cs : List Control) (m : List (String × String)),
      (∀ n opts v, Control.select n opts v ∈ cs → av ∈ opts) →
      ∀ kv ∈ (resetControls av cs m).2,
        kv.2 = av ∨ (kv ∈ m ∧ ¬∃ c ∈ cs, c.name ≠ "" ∧ c.name = kv.1)
  | [], m => by
    rintro _ kv hkv
    refine Or.inr ⟨hkv, ?_⟩
    rintro ⟨c, hc, _⟩
    exact absurd hc (List.not_mem_nil c)
  | c :: cs, m => by
    rintro hsel kv hkv
    by_cases hn : c.name = ""
    · rw [resetControls, if_pos hn] at hkv
      rcases resetControls_values_sentinel av cs m
          (fun n opts v hm => hsel n opts v (List.mem_cons_of_mem c hm)) kv hkv with
        hav | ⟨hm, hno⟩
      · exact Or.inl hav
      · refine Or.inr ⟨hm, ?_⟩
        rintro ⟨c1, hc1, hne1, he1⟩
        rcases List.mem_cons.mp hc1 with rfl | hc1'
        · exact hne1 hn
        · exact hno ⟨c1, hc1', hne1, he1⟩
    · have hw : resetStateValue av c = av := by
        cases c with
        | select n opts v =>
          exact resetStateValue_select_sentinel av n v opts
            (hsel n opts v (List.mem_cons_self _ _))
        | toggle n v b => rfl
        | textInput n v => rfl
        | other n v => rfl
      rw [resetControls, if_neg hn] at hkv
      rcases resetControls_values_sentinel av cs _
          (fun n opts v hm => hsel n opts v (List.mem_cons_of_mem c hm)) kv hkv with
        hav | ⟨hm, hno⟩
      · exact Or.inl hav
      · rcases setKey_mem hm with rfl | ⟨hmm, hne⟩
        · exact Or.inl (by rw [hw])
        · refine Or.inr ⟨hmm, ?_⟩
          rintro ⟨c1, hc1, hne1, he1⟩
          rcases List.mem_cons.mp hc1 with rfl | hc1'
          · exact hne he1.symm
          · exact hno ⟨c1, hc1', hne1, he1⟩

/-- Counterexample to C4 as stated, in four parts, each at a concrete engine.
(1) On `engineEmptySelect` — a registered select with no options, whose
`value` property necessarily reads `""` — `reset()` rewrites the registered
key `"season"` to `""` (line 379 runs unconditionally), which is neither the
match-all sentinel `"all"` nor a first-option value (the select offers none).
(2) On `engineNoAllOption` — options `["spring", "summer"]`, no sentinel
option — the single pass run by `reset()` filters by the first option and
hides the `"summer"` element, whereas a pass with no constraining filters
shows both elements.
(3) On `engineEmptyName` — a select with an empty `name` — `reset()` skips
the control, so the registered key `""` keeps its old value `"summer"`, which
is neither the sentinel nor the select's first-option value `"spring"`.
(4) On `engineAlienKey` — whose state carries a key `"ghost"` that no
registered control bears — `reset()` leaves `ghost = "x"` in place, so its
pass hides the element declaring `data-ghost="y"`, unlike a pass with no
constraining filters. -/
theorem claim_C4_counterexample :
    ((reset engineEmptySelect none none).1.currentFilters = [("season", "")] ∧
      engineEmptySelect.allValue = "all" ∧
      engineEmptySelect.filters = [Control.select "season" [] ""]) ∧
    ((reset engineNoAllOption none none).1.elements.map Elem.hidden =
        [false, true] ∧
      (filterElements { engineNoAllOption with currentFilters := [("season", "all")] }
          none none).1.elements.map Elem.hidden = [false, false]) ∧
    ((reset engineEmptyName none none).1.currentFilters = [("", "summer")] ∧
      engineEmptyName.allValue = "all" ∧
      engineEmptyName.filters = [Control.select "" ["spring", "summer"] "summer"]) ∧
    ((reset engineAlienKey none none).1.currentFilters =
        [("season", "all"), ("ghost", "x")] ∧
      (reset engineAlienKey none none).1.elements.map Elem.hidden = [false, true] ∧
      (filterElements { engineAlienKey with currentFilters := [] }
          none none).1.elements.map Elem.hidden = [false, false]) := by
  refine ⟨⟨?_, ?_, ?_⟩, ⟨?_, ?_⟩, ⟨?_, ?_, ?_⟩, ⟨?_, ?_, ?_⟩⟩ <;> decide

/-- C4 (amended): on an engine with registered controls, all of whose
controls have nonempty names and whose select controls each offer at least
one option, after `reset()` every registered key's state value equals the
match-all sentinel or the first-option value of a registered select that does
not offer the sentinel; `reset()` runs exactly one pass in total; and when
additionally every select offers the sentinel and every state key belongs to
a registered control, that single pass shows the same elements as a pass with
no constraining filters. -/
theorem claim_C4_reset_neutrality (e : Engine)
    (h0 : e.filters ≠ [])
    (h1 : ∀ c ∈ e.filters, c.name ≠ "")
    (h2 : ∀ n opts v, Control.select n opts v ∈ e.filters → opts ≠ []) :
    (∀ kv ∈ (reset e none none).1.currentFilters,
      (∃ c ∈ e.filters, c.name = kv.1) →
        kv.2 = e.allValue ∨
          ∃ n opts v, Control.select n opts v ∈ e.filters ∧ n = kv.1 ∧
            e.allValue ∉ opts ∧ opts.head? = some kv.2) ∧
    ((reset e none none).2.1.countP (fun ev => ev == Event.passRun) = 1) ∧
    ((∀ n opts v, Control.select n opts v ∈ e.filters → e.allValue ∈ opts) →
      (∀ kv ∈ e.currentFilters, ∃ c ∈ e.filters, c.name = kv.1) →
        (∀ kv ∈ (reset e none none).1.currentFilters, kv.2 = e.allValue) ∧
          (reset e none none).1.elements.map Elem.hidden =
            (filterElements { e with currentFilters := [] } none none).1.elements.map
              Elem.hidden) := by
  have hemp : ¬ e.filters.isEmpty = true := by
    rw [List.isEmpty_iff]
    exact h0
  obtain ⟨hcf, hfl⟩ := reset_fst_proj e none none hemp
  have he1 : (reset e none none).1 =
      (filterElements
        { e with
          filters := (resetControls e.allValue e.filters e.currentFilters).1
          currentFilters := (resetControls e.allValue e.filters e.currentFilters).2 }
        none none).1 := by
    unfold reset
    rw [if_neg hemp]
  have htr : (reset e none none).2.1 =
      (filterElements
        { e with
          filters := (resetControls e.allValue e.filters e.currentFilters).1
          currentFilters := (resetControls e.allValue e.filters e.currentFilters).2 }
        none none).2.1 := by
    unfold reset
    rw [if_neg hemp]
  refine ⟨?_, ?_, ?_⟩
  · intro kv hkv hreg
    rw [hcf] at hkv
    exact resetControls_registered_values e.allValue e.filters e.currentFilters
      h1 h2 kv hkv hreg
  · rw [htr]
    exact countP_passRun_filterElements _ none none
  · intro h3 h4
    have hsent : ∀ kv ∈ (reset e none none).1.currentFilters, kv.2 = e.allValue := by
      intro kv hkv
      rw [hcf] at hkv
      rcases resetControls_values_sentinel e.allValue e.filters e.currentFilters
          h3 kv hkv with hav | ⟨hm, hno⟩
      · exact hav
      · obtain ⟨c, hc, he⟩ := h4 kv hm
        exact absurd ⟨c, hc, h1 c hc, he⟩ hno
    refine ⟨hsent, ?_⟩
    have hsent' : ∀ kv ∈ (resetControls e.allValue e.filters e.currentFilters).2,
        kv.2 = e.allValue := by
      intro kv hkv
      exact hsent kv (by rw [hcf]; exact hkv)
    have hL : (reset e none none).1.elements =
        e.elements.map (fun el => { el with hidden := false }) := by
      rw [he1, filterElements_none_eq, filterElementsBody_fst]
      show e.elements.map _ = e.elements.map _
      apply List.map_congr_left
      intro el _
      rw [elementMatches_of_sentinel _ el hsent']
      rfl
    have hR : (filterElements { e with currentFilters := [] } none none).1.elements =
        e.elements.map (fun el => { el with hidden := false }) := by
      rw [filterElements_none_eq, filterElementsBody_fst]
      show e.elements.map _ = e.elements.map _
      apply List.map_congr_left
      intro el _
      rw [elementMatches_of_sentinel { e with currentFilters := [] } el
        (fun kv hkv => absurd hkv (List.not_mem_nil kv))]
      rfl
    rw [hL, hR]

/-- Witness for C4: the amended theorem evaluated on `sampleEngine` (one
select control named `"season"` offering the sentinel `"all"`). -/
theorem claim_C4_witness :
    ((reset sampleEngine none none).2.1.countP (fun ev => ev == Event.passRun) = 1) ∧
    (∀ kv ∈ (reset sampleEngine none none).1.currentFilters,
      kv.2 = sampleEngine.allValue) ∧
    ((reset sampleEngine none none).1.elements.map Elem.hidden =
      (filterElements { sampleEngine with currentFilters := [] } none none).1.elements.map
        Elem.hidden) := by
  have hfl : sampleEngine.filters =
      [Control.select "season" ["all", "spring", "summer"] "spring"] := rfl
  have hsel : ∀ (n : String) (opts : List String) (v : String),
      Control.select n opts v ∈ sampleEngine.filters → opts ≠ [] := by
    intro n opts v hm
    rw [hfl] at hm
    have heq := List.mem_singleton.mp hm
    injection heq with e1 e2 e3
    rw [e2]
    decide
  have hall : ∀ (n : String) (opts : List String) (v : String),
      Control.select n opts v ∈ sampleEngine.filters → sampleEngine.allValue ∈ opts := by
    intro n opts v hm
    rw [hfl] at hm
    have heq := List.mem_singleton.mp hm
    injection heq with e1 e2 e3
    rw [e2]
    decide
  have h := claim_C4_reset_neutrality sampleEngine (by decide) (by decide) hsel
  exact ⟨h.2.1, (h.2.2 hall (by decide)).1, (h.2.2 hall (by decide)).2⟩

end GEF
